import Mathlib

/-!
Shallow embedding of the Type Strike combat engine.

The embedding follows the JavaScript sources:
  * the tool catalog (TOOLS in the shared constants module),
  * the GameEngine class (getInitialState, findTool, canUseTool, useTool,
    applyEffect, endTurn, updateRealTime, checkGameOver, reset),
  * the BotAI class (makeDecision).

Modelling conventions:
  * The engine's mutable `this.state` becomes an explicit MatchState value;
    every mutating method takes the state and returns the updated state
    (together with its result value where the method returns one).
  * JavaScript numbers are modelled as ℤ where the program only ever stores
    integers (hp, mana, shield, timestamps from Date.now(), effect amounts),
    and as ℚ where fractional values can genuinely arise (per-tool cooldowns,
    which updateRealTime decrements by fractional elapsed seconds, and the
    inert slow-effect value 0.5 from the catalog).
  * The cooldown object (a JS map from tool key to number, with absent keys
    reading as 0 via the `|| 0` pattern) is modelled as a total function
    ToolKey → ℚ defaulting to 0.  The JS upkeep loops touch only the keys
    present in the object, but on absent keys the written updates fix 0
    (max(0, 0-1) = 0, and the tick only rewrites entries that are > 0), so
    the total-function model is extensionally the same map.
  * Date.now() becomes an explicit `now : ℤ` parameter (milliseconds).
  * The statusEffects arrays of both entities are created empty and never
    read or written by any engine method, so they are omitted.
-/

namespace TypeStrike

/-- The seven keys of the tool catalog, in object-literal declaration order. -/
inductive ToolKey
  | iceball
  | fireball
  | shield
  | heal
  | lightning
  | strike
  | dodge
deriving DecidableEq, Fintype

/-- The `type` field of a catalog entry. -/
inductive ToolType
  | attack
  | defense
  | utility
deriving DecidableEq

/-- One entry of a tool's effects array.  The catalog stores a `value` on the
slow effect (0.5) that no engine code ever reads; it is kept for fidelity. -/
inductive Effect
  | damage (value : ℤ)
  | heal (value : ℤ)
  | shield (value : ℤ) (duration : ℤ)
  | dodge (duration : ℤ)
  | slow (duration : ℤ) (value : ℚ)
deriving DecidableEq

/-- A catalog entry (static, immutable). -/
structure Tool where
  name : String
  aliases : List String
  type : ToolType
  manaCost : ℤ
  cooldown : ℚ
  effects : List Effect
  description : String
deriving DecidableEq

/-- The shared tool catalog, transcribed from the constants module. -/
def TOOLS : ToolKey → Tool
  | .iceball =>
    { name := "Ice Ball"
      aliases := ["ice ball", "iceball", "ice"]
      type := .attack
      manaCost := 20
      cooldown := 2
      effects := [.damage 25, .slow 1 (1/2)]
      description := "Launch a freezing projectile" }
  | .fireball =>
    { name := "Fireball"
      aliases := ["fireball", "fire ball", "fire"]
      type := .attack
      manaCost := 30
      cooldown := 3
      effects := [.damage 40]
      description := "Cast a powerful fire blast" }
  | .shield =>
    { name := "Shield"
      aliases := ["shield", "defend", "block"]
      type := .defense
      manaCost := 15
      cooldown := 4
      effects := [.shield 30 2]
      description := "Create a protective barrier" }
  | .heal =>
    { name := "Heal"
      aliases := ["heal", "restore", "mend"]
      type := .utility
      manaCost := 25
      cooldown := 5
      effects := [.heal 35]
      description := "Restore health" }
  | .lightning =>
    { name := "Lightning"
      aliases := ["lightning", "bolt", "shock"]
      type := .attack
      manaCost := 35
      cooldown := 4
      effects := [.damage 50]
      description := "Strike with lightning" }
  | .strike =>
    { name := "Strike"
      aliases := ["strike", "hit", "attack"]
      type := .attack
      manaCost := 10
      cooldown := 1
      effects := [.damage 15]
      description := "Quick melee attack" }
  | .dodge =>
    { name := "Dodge"
      aliases := ["dodge", "evade", "avoid", "jump"]
      type := .defense
      manaCost := 10
      cooldown := 2
      effects := [.dodge 1]
      description := "Jump to evade the next attack" }

/-- Object.entries iteration order of the catalog. -/
def toolKeysList : List ToolKey :=
  [.iceball, .fireball, .shield, .heal, .lightning, .strike, .dodge]

/-- The property-name string of a catalog key. -/
def keyName : ToolKey → String
  | .iceball => "iceball"
  | .fireball => "fireball"
  | .shield => "shield"
  | .heal => "heal"
  | .lightning => "lightning"
  | .strike => "strike"
  | .dodge => "dodge"

/-- Property access TOOLS[toolKey] for an arbitrary string key. -/
def lookupToolKey (toolKey : String) : Option ToolKey :=
  toolKeysList.find? (fun k => keyName k == toolKey)

/-- One combatant's slice of the engine state. -/
structure Entity where
  hp : ℤ
  maxHp : ℤ
  mana : ℤ
  maxMana : ℤ
  shield : ℤ
  cooldowns : ToolKey → ℚ
  isDodging : Bool
  lastManaRegen : ℤ
  lastCooldownUpdate : Option ℤ
deriving DecidableEq

/-- Which entity: the state's player field or its bot field. -/
inductive Side
  | player
  | bot
deriving DecidableEq

/-- One element of the results array a useTool call builds: the plain objects
returned by applyEffect, one constructor per distinct object shape. -/
inductive EffectResult
  | damageDodged (value : ℤ) (dodged : Bool)
  | damageWithShield (value : ℤ) (absorbed : ℤ) (final : ℤ)
  | damagePlain (value : ℤ)
  | heal (value : ℤ)
  | shield (value : ℤ)
  | dodge (duration : ℤ)
  | slow (duration : ℤ)
deriving DecidableEq

/-- The lastAction record stored on the state after a successful action. -/
structure ActionRecord where
  caster : Side
  tool : String
  toolKey : ToolKey
  results : List EffectResult
  timestamp : ℤ
deriving DecidableEq

/-- The whole engine state (this.state in the class). -/
structure MatchState where
  player : Entity
  bot : Entity
  turn : Side
  turnCount : ℕ
  gameOver : Bool
  winner : Option Side
  lastAction : Option ActionRecord
deriving DecidableEq

/-- Engine configuration: the settings object plus the isRealTime flag the
constructor derives from settings.combatMode. -/
structure Settings where
  dodgingEnabled : Bool
  isRealTime : Bool
deriving DecidableEq

/-- The return value of canUseTool. -/
inductive CheckResult
  | valid
  | invalid (reason : String)
deriving DecidableEq

/-- The return value of useTool: a failure object or a success object. -/
inductive UseResult
  | failure (message : String)
  | success (tool : String) (results : List EffectResult) (message : String)
deriving DecidableEq

/-- getInitialState, with Date.now() passed in as `now`. -/
def initialEntity (now : ℤ) : Entity :=
  { hp := 100
    maxHp := 100
    mana := 100
    maxMana := 100
    shield := 0
    cooldowns := fun _ => 0
    isDodging := false
    lastManaRegen := now
    lastCooldownUpdate := none }

/-- The fresh match state getInitialState builds. -/
def getInitialState (now : ℤ) : MatchState :=
  { player := initialEntity now
    bot := initialEntity now
    turn := .player
    turnCount := 0
    gameOver := false
    winner := none
    lastAction := none }

/-- Whitespace-trim of a character list (both ends), as String.trim does. -/
def trimChars (cs : List Char) : List Char :=
  ((cs.dropWhile Char.isWhitespace).reverse.dropWhile Char.isWhitespace).reverse

/-- input.toLowerCase().trim() over the string's characters. -/
def normalizeInput (input : String) : List Char :=
  trimChars (input.data.map Char.toLower)

/-- findTool: first catalog entry (in declaration order) one of whose aliases
equals the normalized input. -/
def findTool (input : String) : Option ToolKey :=
  toolKeysList.find? (fun k =>
    (TOOLS k).aliases.any (fun a => a.data == normalizeInput input))

/-- The cooldown failure reason string. -/
def cooldownReason (remaining : ℚ) (isRealTime : Bool) : String :=
  "Cooldown: " ++ toString remaining ++ (if isRealTime then "s" else " turns")

/-- canUseTool: catalog lookup, then the dodge-disabled check, then mana, then
cooldown; first failing check wins. -/
def canUseTool (s : Settings) (entity : Entity) (toolKey : String) : CheckResult :=
  match lookupToolKey toolKey with
  | none => .invalid "Tool not found"
  | some key =>
    if toolKey == "dodge" && !s.dodgingEnabled then
      .invalid "Dodging is disabled"
    else if entity.mana < (TOOLS key).manaCost then
      .invalid "Not enough mana"
    else if 0 < entity.cooldowns key then
      .invalid (cooldownReason (entity.cooldowns key) s.isRealTime)
    else
      .valid

/-- applyEffect: takes the resolved (caster, target) pair and returns the two
updated entities plus the effect-result record. -/
def applyEffect (effect : Effect) (caster target : Entity) :
    Entity × Entity × EffectResult :=
  match effect with
  | .damage value =>
    if target.isDodging then
      (caster, { target with isDodging := false }, .damageDodged 0 true)
    else if 0 < target.shield then
      let absorbed := min target.shield value
      let remaining := value - absorbed
      (caster,
       { target with
          shield := target.shield - absorbed
          hp := if 0 < remaining then max 0 (target.hp - remaining) else target.hp },
       .damageWithShield value absorbed remaining)
    else
      (caster, { target with hp := max 0 (target.hp - value) }, .damagePlain value)
  | .heal value =>
    let healed := min value (caster.maxHp - caster.hp)
    ({ caster with hp := min caster.maxHp (caster.hp + value) }, target, .heal healed)
  | .shield value _duration =>
    ({ caster with shield := caster.shield + value }, target, .shield value)
  | .dodge duration =>
    ({ caster with isDodging := true }, target, .dodge duration)
  | .slow duration _value =>
    (caster, target, .slow duration)

/-- The effects loop of useTool: apply each effect in declared order,
threading the caster and target and collecting the result records. -/
def applyEffects : List Effect → Entity → Entity → Entity × Entity × List EffectResult
  | [], caster, target => (caster, target, [])
  | e :: es, caster, target =>
    let step := applyEffect e caster target
    let rest := applyEffects es step.1 step.2.1
    (rest.1, rest.2.1, step.2.2 :: rest.2.2)

/-- End-of-turn upkeep on one entity: decrement every cooldown by 1 floored at
0, regenerate 10 mana capped at max, clear the dodge flag. -/
def upkeepEntity (e : Entity) : Entity :=
  { e with
    cooldowns := fun k => max 0 (e.cooldowns k - 1)
    mana := min e.maxMana (e.mana + 10)
    isDodging := false }

/-- endTurn: upkeep both entities, flip the turn, bump the turn counter. -/
def endTurn (st : MatchState) : MatchState :=
  { st with
    player := upkeepEntity st.player
    bot := upkeepEntity st.bot
    turn := if st.turn = .player then .bot else .player
    turnCount := st.turnCount + 1 }

/-- One entity's share of updateRealTime: regenerate 10 mana if at least
1000 ms passed since the last regen, then decrement every positive cooldown by
the elapsed seconds since the last cooldown update (an absent
lastCooldownUpdate reads as now via the JS `|| now` pattern). -/
def tickEntity (now : ℤ) (e : Entity) : Entity :=
  let e1 :=
    if 1000 ≤ now - e.lastManaRegen then
      { e with mana := min e.maxMana (e.mana + 10), lastManaRegen := now }
    else e
  let timePassed : ℚ := ((now - e1.lastCooldownUpdate.getD now : ℤ) : ℚ) / 1000
  { e1 with
    cooldowns := fun k =>
      if 0 < e1.cooldowns k then max 0 (e1.cooldowns k - timePassed)
      else e1.cooldowns k
    lastCooldownUpdate := some now }

/-- updateRealTime: tick both entities.  The method reads no gameOver flag. -/
def updateRealTime (now : ℤ) (st : MatchState) : MatchState :=
  { st with player := tickEntity now st.player, bot := tickEntity now st.bot }

/-- checkGameOver: either entity at hp less than or equal to 0 ends the match,
the other entity winning. -/
def checkGameOver (st : MatchState) : MatchState :=
  if st.player.hp ≤ 0 then { st with gameOver := true, winner := some .bot }
  else if st.bot.hp ≤ 0 then { st with gameOver := true, winner := some .player }
  else st

/-- The Side value of the isPlayer flag. -/
def sideOf (isPlayer : Bool) : Side :=
  if isPlayer then .player else .bot

/-- The acting entity of a useTool call. -/
def casterOf (st : MatchState) (isPlayer : Bool) : Entity :=
  if isPlayer then st.player else st.bot

/-- The other entity of a useTool call. -/
def targetOf (st : MatchState) (isPlayer : Bool) : Entity :=
  if isPlayer then st.bot else st.player

/-- Write back the (caster, target) pair into the state's two entity slots. -/
def setCasterTarget (st : MatchState) (isPlayer : Bool) (c t : Entity) : MatchState :=
  if isPlayer then { st with player := c, bot := t }
  else { st with bot := c, player := t }

/-- The caster after the mana deduction and the cooldown start of useTool. -/
def chargedCaster (st : MatchState) (key : ToolKey) (isPlayer : Bool) : Entity :=
  let caster := casterOf st isPlayer
  { caster with
      mana := caster.mana - (TOOLS key).manaCost
      cooldowns := Function.update caster.cooldowns key (TOOLS key).cooldown }

/-- The effects loop of the success path of useTool: the final caster, the
final target and the collected effect results. -/
def castOutcome (st : MatchState) (key : ToolKey) (isPlayer : Bool) :
    Entity × Entity × List EffectResult :=
  applyEffects (TOOLS key).effects (chargedCaster st key isPlayer) (targetOf st isPlayer)

/-- The state right after the effects loop and the lastAction write. -/
def appliedState (st : MatchState) (key : ToolKey) (isPlayer : Bool) (now : ℤ) :
    MatchState :=
  let out := castOutcome st key isPlayer
  { setCasterTarget st isPlayer out.1 out.2.1 with
      lastAction := some
        { caster := sideOf isPlayer
          tool := (TOOLS key).name
          toolKey := key
          results := out.2.2
          timestamp := now } }

/-- The state after the checkGameOver call of the success path. -/
def preTurnState (st : MatchState) (key : ToolKey) (isPlayer : Bool) (now : ℤ) :
    MatchState :=
  checkGameOver (appliedState st key isPlayer now)

/-- The final state of a successful useTool call: turn-based and not just
ended, the endTurn upkeep runs inside the same call. -/
def successState (s : Settings) (st : MatchState) (key : ToolKey) (isPlayer : Bool)
    (now : ℤ) : MatchState :=
  let st3 := preTurnState st key isPlayer now
  if ¬s.isRealTime ∧ ¬st3.gameOver then endTurn st3 else st3

/-- The result object of a successful useTool call. -/
def successResult (st : MatchState) (key : ToolKey) (isPlayer : Bool) : UseResult :=
  .success (TOOLS key).name (castOutcome st key isPlayer).2.2 ((TOOLS key).name ++ " used!")

/-- useTool, the sole mutating entry point: the guards in source order, then
mana deduction, cooldown start, the effects loop, the lastAction record,
the termination check, and (turn-based, game not over) the endTurn call. -/
def useTool (s : Settings) (st : MatchState) (toolInput : String) (isPlayer : Bool)
    (now : ℤ) : MatchState × UseResult :=
  if st.gameOver then (st, .failure "Game is over")
  else if ¬s.isRealTime ∧ st.turn ≠ sideOf isPlayer then (st, .failure "Not your turn")
  else
    match findTool toolInput with
    | none => (st, .failure "Unknown tool")
    | some key =>
      match canUseTool s (casterOf st isPlayer) (keyName key) with
      | .invalid reason => (st, .failure reason)
      | .valid => (successState s st key isPlayer now, successResult st key isPlayer)

/-- reset: replace the state with a fresh initial state. -/
def resetState (now : ℤ) : MatchState :=
  getInitialState now

/-! ## The BotAI decision policy -/

/-- The predicate of the find over a tool's effects in the AI's attack sort. -/
def isDamageEffect : Effect → Bool
  | .damage _ => true
  | _ => false

/-- The sort key: the value of the first damage effect, or 0 when none. -/
def firstDamageValue (t : Tool) : ℤ :=
  match t.effects.find? isDamageEffect with
  | some (.damage v) => v
  | _ => 0

/-- Whether canUseTool answered valid. -/
def isValidCheck : CheckResult → Bool
  | .valid => true
  | .invalid _ => false

/-- The availableTools list the AI builds: catalog entries, in declaration
order, that pass the same canUseTool the human path uses. -/
def usableTools (s : Settings) (bot : Entity) : List ToolKey :=
  toolKeysList.filter (fun k => isValidCheck (canUseTool s bot (keyName k)))

/-- Stable insertion of a key into a list sorted by descending damage value:
the JS comparator-based sort is stable, keeping catalog order on ties. -/
def insertByDamageDesc (x : ToolKey) : List ToolKey → List ToolKey
  | [] => [x]
  | y :: ys =>
    if firstDamageValue (TOOLS y) ≤ firstDamageValue (TOOLS x) then x :: y :: ys
    else y :: insertByDamageDesc x ys

/-- The stable descending-by-damage sort of the AI's attack list. -/
def sortByDamageDesc : List ToolKey → List ToolKey
  | [] => []
  | x :: xs => insertByDamageDesc x (sortByDamageDesc xs)

/-- Step 1 of the priority chain: with dodging enabled, a roughly-30% roll
(r1, a draw in [0, 1), compared against 0.7) picks the dodge tool if usable. -/
def chooseDodge (s : Settings) (availableTools : List ToolKey) (r1 : ℚ) : Option ToolKey :=
  if s.dodgingEnabled ∧ 7/10 < r1 then
    availableTools.find? (fun t => t == ToolKey.dodge)
  else none

/-- Step 2: below 40 hp with at least 25 mana, pick the heal tool if usable. -/
def chooseHeal (bot : Entity) (availableTools : List ToolKey) : Option ToolKey :=
  if bot.hp < 40 ∧ 25 ≤ bot.mana then
    availableTools.find? (fun t => t == ToolKey.heal)
  else none

/-- Step 3: with no shield up, at least 15 mana, and a roughly-40% roll (r2
against 0.6), pick the shield tool if usable. -/
def chooseShield (bot : Entity) (availableTools : List ToolKey) (r2 : ℚ) : Option ToolKey :=
  if bot.shield = 0 ∧ 15 ≤ bot.mana ∧ 6/10 < r2 then
    availableTools.find? (fun t => t == ToolKey.shield)
  else none

/-- Step 4: among the usable attack tools, sorted stably by descending first
damage value, take the strongest. -/
def chooseAttack (availableTools : List ToolKey) : Option ToolKey :=
  (sortByDamageDesc (availableTools.filter (fun t => (TOOLS t).type == ToolType.attack))).head?

/-- Step 5: a uniform pick, index floor(r3 * length) for the draw r3 in
[0, 1).  (On an out-of-range index the JS code would fault on undefined; the
model returns an arbitrary default there, outside the draw's range.) -/
def chooseFallback (availableTools : List ToolKey) (r3 : ℚ) : ToolKey :=
  availableTools.getD (⌊r3 * availableTools.length⌋).toNat ToolKey.iceball

/-- The first selection made by a priority list of steps: the JS sequence of
`if` statements each guarded by the chosenTool still being null. -/
def firstSome : List (Option ToolKey) → Option ToolKey
  | [] => none
  | some t :: _ => some t
  | none :: rest => firstSome rest

/-- BotAI.makeDecision.  The three Math.random() draws become the parameters
r1 (the dodge roll), r2 (the shield roll) and r3 (the uniform fallback pick);
each draw lies in [0, 1).  Returns the chosen tool's display name, or none when
no catalog tool is currently usable. -/
def makeDecision (s : Settings) (st : MatchState) (r1 r2 r3 : ℚ) : Option String :=
  if (usableTools s st.bot).isEmpty then none
  else
    some (TOOLS (match firstSome
        [chooseDodge s (usableTools s st.bot) r1,
         chooseHeal st.bot (usableTools s st.bot),
         chooseShield st.bot (usableTools s st.bot) r2,
         chooseAttack (usableTools s st.bot)] with
      | some t => t
      | none => chooseFallback (usableTools s st.bot) r3)).name

/-! ## Sequences of engine operations -/

/-- One call to a public mutating entry point of the engine. -/
inductive EngineOp
  | use (input : String) (isPlayer : Bool) (now : ℤ)
  | turnEnd
  | tick (now : ℤ)
  | restart (now : ℤ)

/-- The state after one engine operation. -/
def stepOp (s : Settings) (st : MatchState) : EngineOp → MatchState
  | .use input isPlayer now => (useTool s st input isPlayer now).1
  | .turnEnd => endTurn st
  | .tick now => updateRealTime now st
  | .restart now => resetState now

/-- The state after a finite sequence of engine operations from the initial
state. -/
def runOps (s : Settings) (now : ℤ) (ops : List EngineOp) : MatchState :=
  ops.foldl (stepOp s) (getInitialState now)

/-! ## Invariants and effect wellformedness -/

/-- The per-entity resource invariant of the spec: hp and mana within
[0, max], shield and every cooldown non-negative. -/
def EntityInv (e : Entity) : Prop :=
  0 ≤ e.hp ∧ e.hp ≤ e.maxHp ∧ 0 ≤ e.mana ∧ e.mana ≤ e.maxMana ∧ 0 ≤ e.shield ∧
    ∀ k, 0 ≤ e.cooldowns k

/-- The resource invariant for both entities of a match state. -/
def StateInv (st : MatchState) : Prop :=
  EntityInv st.player ∧ EntityInv st.bot

/-- Non-negative amounts on the value-carrying effects. -/
def effectWF : Effect → Bool
  | .damage v => decide (0 ≤ v)
  | .heal v => decide (0 ≤ v)
  | .shield v _ => decide (0 ≤ v)
  | .dodge _ => true
  | .slow _ _ => true

/-- Whether an effect is the dodge kind. -/
def isDodgeKind : Effect → Bool
  | .dodge _ => true
  | _ => false

/-- Both dodge flags down, and hp still positive while the match is live: the
shape every turn-based state has between engine calls. -/
def DodgeInv (st : MatchState) : Prop :=
  st.player.isDodging = false ∧ st.bot.isDodging = false ∧
    (st.gameOver = false → 0 < st.player.hp ∧ 0 < st.bot.hp)

/-! ## Concrete fixtures used by witnesses and counterexamples -/

/-- Turn-based configuration with dodging disabled (the App.jsx default). -/
def turnBasedSettings : Settings :=
  { dodgingEnabled := false, isRealTime := false }

/-- Real-time configuration with dodging disabled. -/
def realtimeSettings : Settings :=
  { dodgingEnabled := false, isRealTime := true }

/-- A terminal state: gameOver set, the player down to 50 mana, timestamps 0. -/
def finishedState : MatchState :=
  { getInitialState 0 with
      gameOver := true
      winner := some .player
      player := { initialEntity 0 with mana := 50 } }

/-- A state whose bot has its dodge flag set. -/
def dodgingBotState : MatchState :=
  { getInitialState 0 with bot := { initialEntity 0 with isDodging := true } }

/-- A wounded entity with a small shield: 10 hp, 10 shield. -/
def woundedEntity : Entity :=
  { initialEntity 0 with hp := 10, shield := 10 }

/-! ## Helper lemmas -/

theorem useTool_cases (s : Settings) (st : MatchState) (input : String) (isPlayer : Bool)
    (now : ℤ) :
    (st.gameOver = true ∧ useTool s st input isPlayer now = (st, .failure "Game is over")) ∨
    (st.gameOver = false ∧ ¬s.isRealTime ∧ st.turn ≠ sideOf isPlayer ∧
      useTool s st input isPlayer now = (st, .failure "Not your turn")) ∨
    (st.gameOver = false ∧ ¬(¬s.isRealTime ∧ st.turn ≠ sideOf isPlayer) ∧
      findTool input = none ∧ useTool s st input isPlayer now = (st, .failure "Unknown tool")) ∨
    (∃ key reason, st.gameOver = false ∧ ¬(¬s.isRealTime ∧ st.turn ≠ sideOf isPlayer) ∧
      findTool input = some key ∧
      canUseTool s (casterOf st isPlayer) (keyName key) = .invalid reason ∧
      useTool s st input isPlayer now = (st, .failure reason)) ∨
    (∃ key, st.gameOver = false ∧ ¬(¬s.isRealTime ∧ st.turn ≠ sideOf isPlayer) ∧
      findTool input = some key ∧
      canUseTool s (casterOf st isPlayer) (keyName key) = .valid ∧
      useTool s st input isPlayer now =
        (successState s st key isPlayer now, successResult st key isPlayer)) := by
  unfold useTool
  split
  next hg => exact Or.inl ⟨hg, by rfl⟩
  next hg =>
    rw [Bool.not_eq_true] at hg
    split
    next ht => exact Or.inr (Or.inl ⟨hg, ht.1, ht.2, by rfl⟩)
    next ht =>
      cases hf : findTool input with
      | none =>
        simp only [hf]
        exact Or.inr (Or.inr (Or.inl ⟨hg, ht, by trivial, by trivial⟩))
      | some key =>
        simp only [hf]
        cases hc : canUseTool s (casterOf st isPlayer) (keyName key) with
        | invalid reason =>
          simp only [hc]
          exact Or.inr (Or.inr (Or.inr (Or.inl ⟨key, reason, hg, ht, by trivial, hc, by trivial⟩)))
        | valid =>
          simp only [hc]
          exact Or.inr (Or.inr (Or.inr (Or.inr ⟨key, hg, ht, by trivial, hc, by trivial⟩)))

theorem useTool_failure_eq (s : Settings) (st : MatchState) (input : String)
    (isPlayer : Bool) (now : ℤ) (msg : String)
    (h : (useTool s st input isPlayer now).2 = .failure msg) :
    useTool s st input isPlayer now = (st, .failure msg) := by
  rcases useTool_cases s st input isPlayer now with
    ⟨_, he⟩ | ⟨_, _, _, he⟩ | ⟨_, _, _, he⟩ | ⟨k, r, _, _, _, _, he⟩ | ⟨k, _, _, _, _, he⟩
  all_goals rw [he] at h ⊢
  all_goals first
    | (cases h; rfl)
    | (exact absurd h (by simp [successResult]))

theorem checkGameOver_turn (st : MatchState) : (checkGameOver st).turn = st.turn := by
  unfold checkGameOver
  split
  · rfl
  · split <;> rfl

theorem checkGameOver_turnCount (st : MatchState) :
    (checkGameOver st).turnCount = st.turnCount := by
  unfold checkGameOver
  split
  · rfl
  · split <;> rfl

theorem checkGameOver_player (st : MatchState) : (checkGameOver st).player = st.player := by
  unfold checkGameOver
  split
  · rfl
  · split <;> rfl

theorem checkGameOver_bot (st : MatchState) : (checkGameOver st).bot = st.bot := by
  unfold checkGameOver
  split
  · rfl
  · split <;> rfl

theorem checkGameOver_gameOver_false (st : MatchState)
    (h : (checkGameOver st).gameOver = false) :
    st.gameOver = false ∧ 0 < st.player.hp ∧ 0 < st.bot.hp := by
  unfold checkGameOver at h
  split at h
  · simp at h
  · split at h
    · simp at h
    · next h1 h2 => exact ⟨h, by omega, by omega⟩

theorem setCasterTarget_turn (st : MatchState) (isPlayer : Bool) (c t : Entity) :
    (setCasterTarget st isPlayer c t).turn = st.turn := by
  unfold setCasterTarget
  split <;> rfl

theorem setCasterTarget_turnCount (st : MatchState) (isPlayer : Bool) (c t : Entity) :
    (setCasterTarget st isPlayer c t).turnCount = st.turnCount := by
  unfold setCasterTarget
  split <;> rfl

theorem setCasterTarget_gameOver (st : MatchState) (isPlayer : Bool) (c t : Entity) :
    (setCasterTarget st isPlayer c t).gameOver = st.gameOver := by
  unfold setCasterTarget
  split <;> rfl

theorem appliedState_turn (st : MatchState) (key : ToolKey) (isPlayer : Bool) (now : ℤ) :
    (appliedState st key isPlayer now).turn = st.turn := by
  unfold appliedState
  exact setCasterTarget_turn st isPlayer _ _

theorem appliedState_turnCount (st : MatchState) (key : ToolKey) (isPlayer : Bool)
    (now : ℤ) : (appliedState st key isPlayer now).turnCount = st.turnCount := by
  unfold appliedState
  exact setCasterTarget_turnCount st isPlayer _ _

theorem preTurnState_turn (st : MatchState) (key : ToolKey) (isPlayer : Bool) (now : ℤ) :
    (preTurnState st key isPlayer now).turn = st.turn := by
  unfold preTurnState
  rw [checkGameOver_turn, appliedState_turn]

theorem preTurnState_turnCount (st : MatchState) (key : ToolKey) (isPlayer : Bool)
    (now : ℤ) : (preTurnState st key isPlayer now).turnCount = st.turnCount := by
  unfold preTurnState
  rw [checkGameOver_turnCount, appliedState_turnCount]

theorem successState_not_over (s : Settings) (st : MatchState) (key : ToolKey)
    (isPlayer : Bool) (now : ℤ) (hrt : s.isRealTime = false)
    (hgo : (successState s st key isPlayer now).gameOver = false) :
    (successState s st key isPlayer now).turn =
        (if st.turn = .player then Side.bot else Side.player) ∧
      (successState s st key isPlayer now).turnCount = st.turnCount + 1 := by
  unfold successState at hgo ⊢
  cases h3 : (preTurnState st key isPlayer now).gameOver
  · rw [if_pos ⟨by simp [hrt], by simp [h3]⟩]
    constructor
    · show (if (preTurnState st key isPlayer now).turn = .player then Side.bot
          else Side.player) = _
      rw [preTurnState_turn]
    · show (preTurnState st key isPlayer now).turnCount + 1 = st.turnCount + 1
      rw [preTurnState_turnCount]
  · rw [if_neg (by simp [h3])] at hgo
    rw [h3] at hgo
    cases hgo

/-! ## C1 -/

/-- C1, counterexample: the claim says that once gameOver is true no engine
entry point mutates any entity's mana, including updateRealTime; but
updateRealTime has no gameOver guard, and on a terminal state whose player
regen timestamp is 1000 ms old it regenerates that player's mana. -/
theorem claimC1_counterexample :
    finishedState.gameOver = true ∧
      (updateRealTime 2000 finishedState).player.mana ≠ finishedState.player.mana := by
  constructor
  · rfl
  · decide

/-- C1, amended: once gameOver is true, every useTool call, from either
entity and in either mode, returns the game-over failure and leaves the whole
match state unchanged.  (updateRealTime, by contrast, is not gated on
gameOver: see the counterexample.) -/
theorem claimC1_gameOver_useTool_frozen (s : Settings) (st : MatchState)
    (input : String) (isPlayer : Bool) (now : ℤ) (h : st.gameOver = true) :
    useTool s st input isPlayer now = (st, .failure "Game is over") := by
  unfold useTool
  simp [h]

/-- C1, witness: a concrete useTool call on a terminal state. -/
theorem claimC1_witness :
    useTool turnBasedSettings finishedState "fireball" true 0 =
      (finishedState, .failure "Game is over") :=
  claimC1_gameOver_useTool_frozen turnBasedSettings finishedState "fireball" true 0 rfl

/-! ## C2 -/

/-- C2, counterexample: after the fresh-match fireball cast the player's mana
is 80, not 70 as the claim states, because the same successful call also runs
the end-of-turn upkeep (10 mana regen, cooldown decrement) on both entities. -/
theorem claimC2_counterexample :
    (useTool turnBasedSettings (getInitialState 0) "fireball" true 0).1.player.mana = 80 ∧
      (useTool turnBasedSettings (getInitialState 0) "fireball" true 0).1.player.mana ≠ 70 := by
  constructor <;> decide

/-- C2, amended: in a fresh turn-based match the player's fireball cast
succeeds, the bot drops to 60 hp, the turn passes to the bot — and because the
end-of-turn upkeep runs inside the same call, the player's mana ends at 80
(70 after the cost, plus 10 regen) and the fireball cooldown at 2 (3 minus the
upkeep decrement). -/
theorem claimC2_fireball_end_to_end :
    (useTool turnBasedSettings (getInitialState 0) "fireball" true 0).2 =
        .success "Fireball" [.damagePlain 40] "Fireball used!" ∧
      (useTool turnBasedSettings (getInitialState 0) "fireball" true 0).1.bot.hp = 60 ∧
      (useTool turnBasedSettings (getInitialState 0) "fireball" true 0).1.player.mana = 80 ∧
      (useTool turnBasedSettings (getInitialState 0) "fireball" true 0).1.player.cooldowns
          ToolKey.fireball = 2 ∧
      (useTool turnBasedSettings (getInitialState 0) "fireball" true 0).1.turn = Side.bot ∧
      (useTool turnBasedSettings (getInitialState 0) "fireball" true 0).1.turnCount = 1 :=
  ⟨by decide, by decide, by decide,
   Eq.trans (by rfl) (by norm_num : max 0 ((3 : ℚ) - 1) = 2),
   by decide, by decide⟩

/-! ## C3 -/

/-- C3, counterexample: the claim says a dodge flag never consumed by a damage
effect is cleared at the next real-time tick; but updateRealTime never touches
the flag, so after a tick on a state whose bot is dodging the flag is still
set. -/
theorem claimC3_counterexample :
    dodgingBotState.bot.isDodging = true ∧
      (updateRealTime 500 dodgingBotState).bot.isDodging = true := by
  constructor <;> rfl

/-- C3, amended: a damage effect against a dodging target is nullified to
exactly zero — the target keeps its hp and shield, only the flag is cleared —
and the effect result records value 0 with dodged true; the end-of-turn upkeep
clears both entities' dodge flags unconditionally; the real-time tick leaves
the flag exactly as it was. -/
theorem claimC3_dodge_semantics :
    (∀ (c t : Entity) (v : ℤ), t.isDodging = true →
        applyEffect (.damage v) c t = (c, { t with isDodging := false }, .damageDodged 0 true)) ∧
      (∀ st : MatchState,
        (endTurn st).player.isDodging = false ∧ (endTurn st).bot.isDodging = false) ∧
      (∀ (now : ℤ) (e : Entity), (tickEntity now e).isDodging = e.isDodging) := by
  refine ⟨?_, ?_, ?_⟩
  · intro c t v h
    simp [applyEffect, h]
  · intro st
    exact ⟨rfl, rfl⟩
  · intro now e
    unfold tickEntity
    split <;> rfl

/-! ## C5 -/

/-- C5: every useTool call whose result is a failure (any of the game-over,
wrong-turn, unknown-tool, dodging-disabled, mana and cooldown reasons) leaves
the entire match state unchanged; the failure is a returned value of the
result type, not an exception. -/
theorem claimC5_failure_no_mutation (s : Settings) (st : MatchState) (input : String)
    (isPlayer : Bool) (now : ℤ) (msg : String)
    (h : (useTool s st input isPlayer now).2 = .failure msg) :
    (useTool s st input isPlayer now).1 = st :=
  congrArg Prod.fst (useTool_failure_eq s st input isPlayer now msg h)

/-- C5, witness: the bot calling out of turn on a fresh match fails and the
state is exactly the initial state still. -/
theorem claimC5_witness :
    (useTool turnBasedSettings (getInitialState 0) "fireball" false 0).1 =
      getInitialState 0 :=
  claimC5_failure_no_mutation turnBasedSettings (getInitialState 0) "fireball" false 0
    "Not your turn" (by decide)

/-! ## C6 -/

/-- C6, counterexample: the claim quantifies over every entity with the dodge
flag unset, but for an entity that starts with a nonzero shield (here 10) the
shield after the shield cast and one damage{25} is 15, not 5. -/
theorem claimC6_counterexample :
    (applyEffect (.damage 25) (initialEntity 0)
        (applyEffect (.shield 30 2) woundedEntity (initialEntity 0)).1).2.1.shield ≠ 5 := by
  decide

/-- C6, amended: for an entity with dodge flag unset, no shield yet, and at
least 20 hp, applying shield{30} and then damage{25} leaves its shield at
exactly 5 with hp untouched (absorbed 25, final 0), and a second damage{25}
empties the shield and removes exactly 20 hp (absorbed 5, final 20). -/
theorem claimC6_shield_absorption (e o : Entity)
    (hd : e.isDodging = false) (hs : e.shield = 0) (hhp : 20 ≤ e.hp) :
    (applyEffect (.shield 30 2) e o).1.shield = 30 ∧
      (applyEffect (.damage 25) o (applyEffect (.shield 30 2) e o).1).2.1.shield = 5 ∧
      (applyEffect (.damage 25) o (applyEffect (.shield 30 2) e o).1).2.1.hp = e.hp ∧
      (applyEffect (.damage 25) o (applyEffect (.shield 30 2) e o).1).2.2 =
        .damageWithShield 25 25 0 ∧
      (applyEffect (.damage 25) o
          (applyEffect (.damage 25) o (applyEffect (.shield 30 2) e o).1).2.1).2.1.shield = 0 ∧
      (applyEffect (.damage 25) o
          (applyEffect (.damage 25) o (applyEffect (.shield 30 2) e o).1).2.1).2.1.hp =
        e.hp - 20 ∧
      (applyEffect (.damage 25) o
          (applyEffect (.damage 25) o (applyEffect (.shield 30 2) e o).1).2.1).2.2 =
        .damageWithShield 25 5 20 := by
  simp only [applyEffect, hd, hs]
  norm_num
  omega

/-- C6, witness: the sequence at a fresh 100-hp, 0-shield entity. -/
theorem claimC6_witness :
    (applyEffect (.shield 30 2) (initialEntity 0) (initialEntity 0)).1.shield = 30 ∧
      (applyEffect (.damage 25) (initialEntity 0)
          (applyEffect (.shield 30 2) (initialEntity 0) (initialEntity 0)).1).2.1.shield = 5 ∧
      (applyEffect (.damage 25) (initialEntity 0)
          (applyEffect (.shield 30 2) (initialEntity 0) (initialEntity 0)).1).2.1.hp =
        (initialEntity 0).hp ∧
      (applyEffect (.damage 25) (initialEntity 0)
          (applyEffect (.shield 30 2) (initialEntity 0) (initialEntity 0)).1).2.2 =
        .damageWithShield 25 25 0 ∧
      (applyEffect (.damage 25) (initialEntity 0)
          (applyEffect (.damage 25) (initialEntity 0)
            (applyEffect (.shield 30 2) (initialEntity 0) (initialEntity 0)).1).2.1).2.1.shield = 0 ∧
      (applyEffect (.damage 25) (initialEntity 0)
          (applyEffect (.damage 25) (initialEntity 0)
            (applyEffect (.shield 30 2) (initialEntity 0) (initialEntity 0)).1).2.1).2.1.hp =
        (initialEntity 0).hp - 20 ∧
      (applyEffect (.damage 25) (initialEntity 0)
          (applyEffect (.damage 25) (initialEntity 0)
            (applyEffect (.shield 30 2) (initialEntity 0) (initialEntity 0)).1).2.1).2.2 =
        .damageWithShield 25 5 20 :=
  claimC6_shield_absorption (initialEntity 0) (initialEntity 0) rfl rfl (by decide)

/-! ## C7 -/

/-- C7: in turn-based mode, a useTool call by the entity not holding the turn
on a live match fails with the not-your-turn reason and changes nothing; and a
successful call that leaves the match live flips the turn holder and bumps the
turn counter by exactly one. -/
theorem claimC7_turn_discipline (s : Settings) (st : MatchState) (input : String)
    (isPlayer : Bool) (now : ℤ) (hrt : s.isRealTime = false) :
    (st.gameOver = false → st.turn ≠ sideOf isPlayer →
        useTool s st input isPlayer now = (st, .failure "Not your turn")) ∧
      ∀ t r m, (useTool s st input isPlayer now).2 = .success t r m →
        (useTool s st input isPlayer now).1.gameOver = false →
        (useTool s st input isPlayer now).1.turn =
            (if st.turn = .player then Side.bot else Side.player) ∧
          (useTool s st input isPlayer now).1.turnCount = st.turnCount + 1 := by
  constructor
  · intro hg ht
    unfold useTool
    rw [if_neg (by simp [hg]), if_pos ⟨by simp [hrt], ht⟩]
  · intro t r m hsucc hgo
    rcases useTool_cases s st input isPlayer now with
      ⟨_, he⟩ | ⟨_, _, _, he⟩ | ⟨_, _, _, he⟩ | ⟨k, rr, _, _, _, _, he⟩ | ⟨k, _, _, _, _, he⟩
    · rw [he] at hsucc; cases hsucc
    · rw [he] at hsucc; cases hsucc
    · rw [he] at hsucc; cases hsucc
    · rw [he] at hsucc; cases hsucc
    · rw [he] at hgo ⊢
      exact successState_not_over s st k isPlayer now hrt hgo

/-- C7, witness: the bot acting out of turn on a fresh match. -/
theorem claimC7_witness :
    useTool turnBasedSettings (getInitialState 0) "fireball" false 0 =
      (getInitialState 0, .failure "Not your turn") :=
  (claimC7_turn_discipline turnBasedSettings (getInitialState 0) "fireball" false 0
      rfl).1 rfl (by decide)

/-! ## C8 -/

/-- C8: canUseTool checks, in order, catalog membership, the dodge-disabled
configuration, the mana requirement and the cooldown, answering the first
failing check's reason and valid when all pass; it only ever answers valid or
invalid, and it takes the state purely as input (the embedding gives it no
state output at all). -/
theorem claimC8_canUseTool_checks (s : Settings) (e : Entity) (toolKey : String) :
    (canUseTool s e toolKey = .valid ∨ ∃ r, canUseTool s e toolKey = .invalid r) ∧
      (lookupToolKey toolKey = none → canUseTool s e toolKey = .invalid "Tool not found") ∧
      ∀ k, lookupToolKey toolKey = some k →
        ((toolKey == "dodge" && !s.dodgingEnabled) = true →
            canUseTool s e toolKey = .invalid "Dodging is disabled") ∧
          ((toolKey == "dodge" && !s.dodgingEnabled) = false →
            e.mana < (TOOLS k).manaCost →
            canUseTool s e toolKey = .invalid "Not enough mana") ∧
          ((toolKey == "dodge" && !s.dodgingEnabled) = false →
            ¬e.mana < (TOOLS k).manaCost → 0 < e.cooldowns k →
            canUseTool s e toolKey =
              .invalid (cooldownReason (e.cooldowns k) s.isRealTime)) ∧
          ((toolKey == "dodge" && !s.dodgingEnabled) = false →
            ¬e.mana < (TOOLS k).manaCost → ¬0 < e.cooldowns k →
            canUseTool s e toolKey = .valid) := by
  refine ⟨?_, ?_, ?_⟩
  · unfold canUseTool
    rcases lookupToolKey toolKey with _ | k
    · exact Or.inr ⟨_, rfl⟩
    · dsimp only
      split
      · exact Or.inr ⟨_, rfl⟩
      · split
        · exact Or.inr ⟨_, rfl⟩
        · split
          · exact Or.inr ⟨_, rfl⟩
          · exact Or.inl rfl
  · intro h
    unfold canUseTool
    rw [h]
  · intro k hk
    unfold canUseTool
    rw [hk]
    refine ⟨?_, ?_, ?_, ?_⟩
    · intro hcond
      simp only [hcond, if_true]
    · intro hcond hm
      simp only [hcond, Bool.false_eq_true, if_false, if_pos hm]
    · intro hcond hm hc
      simp only [hcond, Bool.false_eq_true, if_false, if_neg hm, if_pos hc]
    · intro hcond hm hc
      simp only [hcond, Bool.false_eq_true, if_false, if_neg hm, if_neg hc]

/-! ## Dodge-flag bookkeeping lemmas (toward C10) -/

theorem applyEffect_target_notDodging (e : Effect) (c t : Entity)
    (h : t.isDodging = false) : (applyEffect e c t).2.1.isDodging = false := by
  cases e with
  | damage v =>
    simp only [applyEffect]
    rw [if_neg (by simp [h])]
    split
    · exact h
    · exact h
  | heal v => exact h
  | shield v d => exact h
  | dodge d => exact h
  | slow d v => exact h

theorem applyEffect_caster_isDodging (e : Effect) (c t : Entity)
    (h : isDodgeKind e = false) : (applyEffect e c t).1.isDodging = c.isDodging := by
  cases e with
  | damage v =>
    simp only [applyEffect]
    split
    · rfl
    · split <;> rfl
  | heal v => rfl
  | shield v d => rfl
  | dodge d => simp [isDodgeKind] at h
  | slow d v => rfl

theorem applyEffects_target_notDodging :
    ∀ (effects : List Effect) (c t : Entity), t.isDodging = false →
      (applyEffects effects c t).2.1.isDodging = false
  | [], _, _, h => h
  | e :: es, c, t, h =>
    applyEffects_target_notDodging es (applyEffect e c t).1 (applyEffect e c t).2.1
      (applyEffect_target_notDodging e c t h)

theorem applyEffects_caster_isDodging :
    ∀ (effects : List Effect) (c t : Entity), (∀ e ∈ effects, isDodgeKind e = false) →
      (applyEffects effects c t).1.isDodging = c.isDodging
  | [], _, _, _ => rfl
  | e :: es, c, t, h =>
    (applyEffects_caster_isDodging es (applyEffect e c t).1 (applyEffect e c t).2.1
        (fun x hx => h x (List.mem_cons_of_mem e hx))).trans
      (applyEffect_caster_isDodging e c t (h e (List.mem_cons_self e es)))

theorem nonDodge_tools_have_no_dodge_effect :
    ∀ k : ToolKey, k ≠ ToolKey.dodge → ∀ e ∈ (TOOLS k).effects, isDodgeKind e = false := by
  decide

theorem castOutcome_dodge (st : MatchState) (isPlayer : Bool) :
    castOutcome st ToolKey.dodge isPlayer =
      ({ chargedCaster st ToolKey.dodge isPlayer with isDodging := true },
        targetOf st isPlayer, [.dodge 1]) := rfl

theorem checkGameOver_gameOver_of_pos (st : MatchState) (h1 : 0 < st.player.hp)
    (h2 : 0 < st.bot.hp) : (checkGameOver st).gameOver = st.gameOver := by
  unfold checkGameOver
  rw [if_neg (by omega), if_neg (by omega)]

theorem appliedState_gameOver (st : MatchState) (key : ToolKey) (isPlayer : Bool)
    (now : ℤ) : (appliedState st key isPlayer now).gameOver = st.gameOver := by
  unfold appliedState
  exact setCasterTarget_gameOver st isPlayer _ _

theorem tickEntity_isDodging (now : ℤ) (e : Entity) :
    (tickEntity now e).isDodging = e.isDodging := by
  unfold tickEntity
  split <;> rfl

theorem tickEntity_hp (now : ℤ) (e : Entity) : (tickEntity now e).hp = e.hp := by
  unfold tickEntity
  split <;> rfl

theorem useTool_preserves_DodgeInv (s : Settings) (st : MatchState) (input : String)
    (isPlayer : Bool) (now : ℤ) (hrt : s.isRealTime = false) (hinv : DodgeInv st) :
    DodgeInv (useTool s st input isPlayer now).1 := by
  obtain ⟨hpd, hbd, hlive⟩ := hinv
  rcases useTool_cases s st input isPlayer now with
    ⟨_, he⟩ | ⟨_, _, _, he⟩ | ⟨_, _, _, he⟩ | ⟨k, rr, _, _, _, _, he⟩ | ⟨k, hg, _, _, _, he⟩
  · rw [he]; exact ⟨hpd, hbd, hlive⟩
  · rw [he]; exact ⟨hpd, hbd, hlive⟩
  · rw [he]; exact ⟨hpd, hbd, hlive⟩
  · rw [he]; exact ⟨hpd, hbd, hlive⟩
  · rw [he]
    show DodgeInv (successState s st k isPlayer now)
    have hcflag : (casterOf st isPlayer).isDodging = false := by
      cases isPlayer
      · exact hbd
      · exact hpd
    have htflag : (targetOf st isPlayer).isDodging = false := by
      cases isPlayer
      · exact hpd
      · exact hbd
    have htout : (castOutcome st k isPlayer).2.1.isDodging = false :=
      applyEffects_target_notDodging _ _ _ htflag
    unfold successState
    cases h3 : (preTurnState st k isPlayer now).gameOver with
    | false =>
      rw [if_pos ⟨by simp [hrt], by simp [h3]⟩]
      have hq := checkGameOver_gameOver_false _ h3
      refine ⟨rfl, rfl, fun _ => ⟨?_, ?_⟩⟩
      · show 0 < (preTurnState st k isPlayer now).player.hp
        unfold preTurnState
        rw [checkGameOver_player]
        exact hq.2.1
      · show 0 < (preTurnState st k isPlayer now).bot.hp
        unfold preTurnState
        rw [checkGameOver_bot]
        exact hq.2.2
    | true =>
      rw [if_neg (by simp [h3])]
      by_cases hk : k = ToolKey.dodge
      · exfalso
        subst hk
        have hx1 : 0 < (appliedState st ToolKey.dodge isPlayer now).player.hp := by
          cases isPlayer
          · exact (hlive hg).1
          · exact (hlive hg).1
        have hx2 : 0 < (appliedState st ToolKey.dodge isPlayer now).bot.hp := by
          cases isPlayer
          · exact (hlive hg).2
          · exact (hlive hg).2
        have hfalse : (preTurnState st ToolKey.dodge isPlayer now).gameOver = false := by
          unfold preTurnState
          rw [checkGameOver_gameOver_of_pos _ hx1 hx2, appliedState_gameOver]
          exact hg
        rw [hfalse] at h3
        cases h3
      · have hcout : (castOutcome st k isPlayer).1.isDodging = false :=
          (applyEffects_caster_isDodging _ _ _
            (nonDodge_tools_have_no_dodge_effect k hk)).trans hcflag
        refine ⟨?_, ?_, fun hfalse => absurd hfalse (by simp [h3])⟩
        · show (preTurnState st k isPlayer now).player.isDodging = false
          unfold preTurnState
          rw [checkGameOver_player]
          cases isPlayer
          · exact htout
          · exact hcout
        · show (preTurnState st k isPlayer now).bot.isDodging = false
          unfold preTurnState
          rw [checkGameOver_bot]
          cases isPlayer
          · exact hcout
          · exact htout

/-- endTurn keeps both flags down and does not change hp or gameOver. -/
theorem endTurn_preserves_DodgeInv (st : MatchState) (h : DodgeInv st) :
    DodgeInv (endTurn st) :=
  ⟨rfl, rfl, fun hg => (h.2.2 hg)⟩

/-- The real-time tick never touches flags, hp or gameOver. -/
theorem tick_preserves_DodgeInv (now : ℤ) (st : MatchState) (h : DodgeInv st) :
    DodgeInv (updateRealTime now st) := by
  obtain ⟨h1, h2, hlive⟩ := h
  refine ⟨?_, ?_, fun hg => ?_⟩
  · rw [show (updateRealTime now st).player = tickEntity now st.player from rfl,
      tickEntity_isDodging]
    exact h1
  · rw [show (updateRealTime now st).bot = tickEntity now st.bot from rfl,
      tickEntity_isDodging]
    exact h2
  · constructor
    · rw [show (updateRealTime now st).player = tickEntity now st.player from rfl,
        tickEntity_hp]
      exact (hlive hg).1
    · rw [show (updateRealTime now st).bot = tickEntity now st.bot from rfl,
        tickEntity_hp]
      exact (hlive hg).2

theorem initial_DodgeInv (now : ℤ) : DodgeInv (getInitialState now) :=
  ⟨rfl, rfl, fun _ => ⟨(by norm_num : (0:ℤ) < 100), (by norm_num : (0:ℤ) < 100)⟩⟩

theorem runOps_DodgeInv (d : Bool) (now : ℤ) (ops : List EngineOp) :
    DodgeInv (runOps ⟨d, false⟩ now ops) := by
  suffices h : ∀ (l : List EngineOp) (st : MatchState), DodgeInv st →
      DodgeInv (l.foldl (stepOp ⟨d, false⟩) st) from h ops _ (initial_DodgeInv now)
  intro l
  induction l with
  | nil => exact fun st h => h
  | cons op rest ih =>
    intro st h
    refine ih _ ?_
    cases op with
    | use input isPlayer nowU =>
      exact useTool_preserves_DodgeInv _ st input isPlayer nowU rfl h
    | turnEnd => exact endTurn_preserves_DodgeInv st h
    | tick nowT => exact tick_preserves_DodgeInv nowT st h
    | restart nowR => exact initial_DodgeInv nowR

/-! ## C10 -/

/-- C10: in turn-based mode, after any useTool call (successful or not) on any
state reachable by engine operations from a fresh match, both entities' dodge
flags are false: a successful dodge cast sets the caster's flag but the
end-of-turn upkeep inside the same call clears it again, so between turn-based
calls no dodge flag survives. -/
theorem claimC10_no_dodge_after_turn_based_calls (d : Bool) (now : ℤ)
    (ops : List EngineOp) (input : String) (isPlayer : Bool) (nowU : ℤ) :
    (useTool ⟨d, false⟩ (runOps ⟨d, false⟩ now ops) input isPlayer
          nowU).1.player.isDodging = false ∧
      (useTool ⟨d, false⟩ (runOps ⟨d, false⟩ now ops) input isPlayer
          nowU).1.bot.isDodging = false := by
  have h := useTool_preserves_DodgeInv ⟨d, false⟩ (runOps ⟨d, false⟩ now ops) input
    isPlayer nowU rfl (runOps_DodgeInv d now ops)
  exact ⟨h.1, h.2.1⟩

/-! ## Resource invariant lemmas (toward C4) -/

theorem catalog_wf : ∀ k : ToolKey,
    0 ≤ (TOOLS k).manaCost ∧ 0 ≤ (TOOLS k).cooldown ∧
      ∀ e ∈ (TOOLS k).effects, effectWF e = true := by
  decide

theorem lookup_keyName : ∀ k : ToolKey, lookupToolKey (keyName k) = some k := by
  decide

theorem applyEffect_inv (e : Effect) (c t : Entity) (hwf : effectWF e = true)
    (hc : EntityInv c) (ht : EntityInv t) :
    EntityInv (applyEffect e c t).1 ∧ EntityInv (applyEffect e c t).2.1 := by
  obtain ⟨hc1, hc2, hc3, hc4, hc5, hc6⟩ := hc
  obtain ⟨ht1, ht2, ht3, ht4, ht5, ht6⟩ := ht
  cases e with
  | damage v =>
    have hv : 0 ≤ v := by simpa [effectWF] using hwf
    simp only [applyEffect]
    split
    · exact ⟨⟨hc1, hc2, hc3, hc4, hc5, hc6⟩, ht1, ht2, ht3, ht4, ht5, ht6⟩
    · split
      · refine ⟨⟨hc1, hc2, hc3, hc4, hc5, hc6⟩, ?_, ?_, ht3, ht4, ?_, ht6⟩
        · dsimp only
          split <;> omega
        · dsimp only
          split <;> omega
        · dsimp only
          omega
      · refine ⟨⟨hc1, hc2, hc3, hc4, hc5, hc6⟩, ?_, ?_, ht3, ht4, ht5, ht6⟩
        · dsimp only
          omega
        · dsimp only
          omega
  | heal v =>
    have hv : 0 ≤ v := by simpa [effectWF] using hwf
    refine ⟨⟨?_, ?_, hc3, hc4, hc5, hc6⟩, ht1, ht2, ht3, ht4, ht5, ht6⟩
    · show 0 ≤ min c.maxHp (c.hp + v)
      omega
    · show min c.maxHp (c.hp + v) ≤ c.maxHp
      omega
  | shield v d =>
    have hv : 0 ≤ v := by simpa [effectWF] using hwf
    refine ⟨⟨hc1, hc2, hc3, hc4, ?_, hc6⟩, ht1, ht2, ht3, ht4, ht5, ht6⟩
    show 0 ≤ c.shield + v
    omega
  | dodge d =>
    exact ⟨⟨hc1, hc2, hc3, hc4, hc5, hc6⟩, ht1, ht2, ht3, ht4, ht5, ht6⟩
  | slow d v =>
    exact ⟨⟨hc1, hc2, hc3, hc4, hc5, hc6⟩, ht1, ht2, ht3, ht4, ht5, ht6⟩

theorem applyEffects_inv :
    ∀ (effects : List Effect) (c t : Entity), (∀ e ∈ effects, effectWF e = true) →
      EntityInv c → EntityInv t →
      EntityInv (applyEffects effects c t).1 ∧ EntityInv (applyEffects effects c t).2.1
  | [], _, _, _, hc, ht => ⟨hc, ht⟩
  | e :: es, c, t, h, hc, ht =>
    have h1 := applyEffect_inv e c t (h e (List.mem_cons_self e es)) hc ht
    applyEffects_inv es (applyEffect e c t).1 (applyEffect e c t).2.1
      (fun x hx => h x (List.mem_cons_of_mem e hx)) h1.1 h1.2

theorem canUseTool_valid_mana (s : Settings) (e : Entity) (k : ToolKey)
    (h : canUseTool s e (keyName k) = .valid) : (TOOLS k).manaCost ≤ e.mana := by
  by_contra hm
  rw [not_le] at hm
  unfold canUseTool at h
  simp only [lookup_keyName] at h
  rw [if_pos hm] at h
  split at h <;> cases h

theorem chargedCaster_inv (s : Settings) (st : MatchState) (k : ToolKey)
    (isPlayer : Bool)
    (hv : canUseTool s (casterOf st isPlayer) (keyName k) = .valid)
    (h : EntityInv (casterOf st isPlayer)) : EntityInv (chargedCaster st k isPlayer) := by
  obtain ⟨h1, h2, h3, h4, h5, h6⟩ := h
  have hm := canUseTool_valid_mana s _ k hv
  have hmc := (catalog_wf k).1
  have hcd := (catalog_wf k).2.1
  refine ⟨h1, h2, ?_, ?_, h5, ?_⟩
  · show 0 ≤ (casterOf st isPlayer).mana - (TOOLS k).manaCost
    omega
  · show (casterOf st isPlayer).mana - (TOOLS k).manaCost ≤ (casterOf st isPlayer).maxMana
    omega
  · intro k'
    show 0 ≤ Function.update (casterOf st isPlayer).cooldowns k (TOOLS k).cooldown k'
    rw [Function.update_apply]
    split
    · exact hcd
    · exact h6 k'

theorem upkeepEntity_inv (e : Entity) (h : EntityInv e) : EntityInv (upkeepEntity e) := by
  obtain ⟨h1, h2, h3, h4, h5, h6⟩ := h
  refine ⟨h1, h2, ?_, ?_, h5, ?_⟩
  · show 0 ≤ min e.maxMana (e.mana + 10)
    omega
  · show min e.maxMana (e.mana + 10) ≤ e.maxMana
    omega
  · intro k
    show 0 ≤ max 0 (e.cooldowns k - 1)
    exact le_max_left 0 _

theorem tickEntity_inv (now : ℤ) (e : Entity) (h : EntityInv e) :
    EntityInv (tickEntity now e) := by
  obtain ⟨h1, h2, h3, h4, h5, h6⟩ := h
  simp only [tickEntity]
  split
  · refine ⟨h1, h2, ?_, ?_, h5, ?_⟩
    · show 0 ≤ min e.maxMana (e.mana + 10)
      omega
    · show min e.maxMana (e.mana + 10) ≤ e.maxMana
      omega
    · intro k
      dsimp only
      split
      · exact le_max_left 0 _
      · exact h6 k
  · refine ⟨h1, h2, h3, h4, h5, ?_⟩
    intro k
    dsimp only
    split
    · exact le_max_left 0 _
    · exact h6 k

theorem useTool_preserves_StateInv (s : Settings) (st : MatchState) (input : String)
    (isPlayer : Bool) (now : ℤ) (h : StateInv st) :
    StateInv (useTool s st input isPlayer now).1 := by
  rcases useTool_cases s st input isPlayer now with
    ⟨_, he⟩ | ⟨_, _, _, he⟩ | ⟨_, _, _, he⟩ | ⟨k, rr, _, _, _, _, he⟩ | ⟨k, hg, htn, hf, hc, he⟩
  · rw [he]; exact h
  · rw [he]; exact h
  · rw [he]; exact h
  · rw [he]; exact h
  · rw [he]
    show StateInv (successState s st k isPlayer now)
    have hcast : EntityInv (casterOf st isPlayer) := by
      cases isPlayer
      · exact h.2
      · exact h.1
    have htgt : EntityInv (targetOf st isPlayer) := by
      cases isPlayer
      · exact h.1
      · exact h.2
    have hch := chargedCaster_inv s st k isPlayer hc hcast
    have happ := applyEffects_inv (TOOLS k).effects (chargedCaster st k isPlayer)
      (targetOf st isPlayer) (catalog_wf k).2.2 hch htgt
    have hA : StateInv (appliedState st k isPlayer now) := by
      cases isPlayer
      · exact ⟨happ.2, happ.1⟩
      · exact ⟨happ.1, happ.2⟩
    have hP : StateInv (preTurnState st k isPlayer now) := by
      unfold preTurnState
      exact ⟨by rw [checkGameOver_player]; exact hA.1,
        by rw [checkGameOver_bot]; exact hA.2⟩
    show StateInv
      (if ¬s.isRealTime = true ∧ ¬(preTurnState st k isPlayer now).gameOver = true then
        endTurn (preTurnState st k isPlayer now)
      else preTurnState st k isPlayer now)
    split
    · exact ⟨upkeepEntity_inv _ hP.1, upkeepEntity_inv _ hP.2⟩
    · exact hP

theorem initial_StateInv (now : ℤ) : StateInv (getInitialState now) := by
  constructor <;>
    exact ⟨(by norm_num : (0:ℤ) ≤ 100), (by norm_num : (100:ℤ) ≤ 100),
      (by norm_num : (0:ℤ) ≤ 100), (by norm_num : (100:ℤ) ≤ 100),
      (by norm_num : (0:ℤ) ≤ 0), fun _ => le_refl 0⟩

theorem stepOp_preserves_StateInv (s : Settings) (st : MatchState) (op : EngineOp)
    (h : StateInv st) : StateInv (stepOp s st op) := by
  cases op with
  | use input isPlayer now => exact useTool_preserves_StateInv s st input isPlayer now h
  | turnEnd => exact ⟨upkeepEntity_inv _ h.1, upkeepEntity_inv _ h.2⟩
  | tick now => exact ⟨tickEntity_inv now _ h.1, tickEntity_inv now _ h.2⟩
  | restart now => exact initial_StateInv now

/-! ## C4 -/

/-- C4: after any finite sequence of engine operations (useTool, end-of-turn
upkeep, real-time tick, reset) from the initial state, both entities satisfy
0 ≤ hp ≤ maxHp, 0 ≤ mana ≤ maxMana, 0 ≤ shield, and every per-tool cooldown is
non-negative (the StateInv / EntityInv conjunctions). -/
theorem claimC4_resource_invariants (s : Settings) (now : ℤ) (ops : List EngineOp) :
    StateInv (runOps s now ops) := by
  suffices h : ∀ (l : List EngineOp) (st : MatchState), StateInv st →
      StateInv (l.foldl (stepOp s) st) from h ops _ (initial_StateInv now)
  intro l
  induction l with
  | nil => exact fun st h => h
  | cons op rest ih => exact fun st h => ih _ (stepOp_preserves_StateInv s st op h)

/-! ## AI decision lemmas (toward C9) -/

theorem mem_insertByDamageDesc (x a : ToolKey) :
    ∀ l : List ToolKey, a ∈ insertByDamageDesc x l → a = x ∨ a ∈ l
  | [], h => Or.inl (by simpa [insertByDamageDesc] using h)
  | y :: ys, h => by
    unfold insertByDamageDesc at h
    split at h
    · simpa using h
    · rcases List.mem_cons.mp h with h1 | h2
      · exact Or.inr (h1 ▸ List.mem_cons_self y ys)
      · rcases mem_insertByDamageDesc x a ys h2 with h3 | h4
        · exact Or.inl h3
        · exact Or.inr (List.mem_cons_of_mem y h4)

theorem mem_sortByDamageDesc (a : ToolKey) :
    ∀ l : List ToolKey, a ∈ sortByDamageDesc l → a ∈ l
  | [], h => by simp [sortByDamageDesc] at h
  | x :: xs, h => by
    unfold sortByDamageDesc at h
    rcases mem_insertByDamageDesc x a _ h with h1 | h2
    · exact h1 ▸ List.mem_cons_self x xs
    · exact List.mem_cons_of_mem x (mem_sortByDamageDesc a xs h2)

theorem chooseDodge_mem (s : Settings) (avail : List ToolKey) (r1 : ℚ) (t : ToolKey)
    (h : chooseDodge s avail r1 = some t) : t ∈ avail := by
  unfold chooseDodge at h
  split at h
  · exact List.mem_of_find?_eq_some h
  · cases h

theorem chooseHeal_mem (bot : Entity) (avail : List ToolKey) (t : ToolKey)
    (h : chooseHeal bot avail = some t) : t ∈ avail := by
  unfold chooseHeal at h
  split at h
  · exact List.mem_of_find?_eq_some h
  · cases h

theorem chooseShield_mem (bot : Entity) (avail : List ToolKey) (r2 : ℚ) (t : ToolKey)
    (h : chooseShield bot avail r2 = some t) : t ∈ avail := by
  unfold chooseShield at h
  split at h
  · exact List.mem_of_find?_eq_some h
  · cases h

theorem chooseAttack_mem (avail : List ToolKey) (t : ToolKey)
    (h : chooseAttack avail = some t) : t ∈ avail := by
  unfold chooseAttack at h
  exact List.mem_of_mem_filter (mem_sortByDamageDesc t _ (List.mem_of_mem_head? h))

theorem chooseFallback_mem (avail : List ToolKey) (r3 : ℚ) (h0 : 0 ≤ r3) (h1 : r3 < 1)
    (hne : avail ≠ []) : chooseFallback avail r3 ∈ avail := by
  unfold chooseFallback
  have hlen : 0 < avail.length := List.length_pos.mpr hne
  have hub : ⌊r3 * (avail.length : ℚ)⌋ < (avail.length : ℤ) := by
    rw [Int.floor_lt]
    calc r3 * (avail.length : ℚ) < 1 * (avail.length : ℚ) := by
          apply mul_lt_mul_of_pos_right h1
          exact_mod_cast hlen
      _ = ((avail.length : ℤ) : ℚ) := by push_cast; ring
  have hlb : 0 ≤ ⌊r3 * (avail.length : ℚ)⌋ :=
    Int.floor_nonneg.mpr (mul_nonneg h0 (by positivity))
  have hidx : (⌊r3 * (avail.length : ℚ)⌋).toNat < avail.length := by omega
  rw [List.getD_eq_getElem?_getD, List.getElem?_eq_getElem hidx]
  exact List.getElem_mem hidx

theorem firstSome_mem : ∀ (opts : List (Option ToolKey)) (t : ToolKey),
    firstSome opts = some t → some t ∈ opts
  | [], t, h => by cases h
  | some x :: rest, t, h => by
    unfold firstSome at h
    cases h
    exact List.mem_cons_self _ _
  | none :: rest, t, h => List.mem_cons_of_mem none (firstSome_mem rest t h)

/-! ## C9 -/

/-- C9: under genuine random draws (the fallback draw r3 in [0, 1)), the AI
returns no selection exactly when zero catalog tools pass canUseTool for the
bot (the same predicate the human path uses), and any returned selection is
the display name of one of those canUseTool-approved tools. -/
theorem claimC9_ai_no_bypass (s : Settings) (st : MatchState) (r1 r2 r3 : ℚ)
    (h0 : 0 ≤ r3) (h1 : r3 < 1) :
    (makeDecision s st r1 r2 r3 = none ↔ usableTools s st.bot = []) ∧
      ∀ n, makeDecision s st r1 r2 r3 = some n →
        ∃ k ∈ usableTools s st.bot, n = (TOOLS k).name := by
  unfold makeDecision
  by_cases he : (usableTools s st.bot).isEmpty
  · rw [if_pos he]
    refine ⟨by simp [List.isEmpty_iff.mp he], ?_⟩
    intro n h
    cases h
  · rw [if_neg he]
    have hne : usableTools s st.bot ≠ [] := by
      intro hcon
      exact he (by simp [hcon])
    refine ⟨⟨fun h => (nomatch h), fun h => absurd h hne⟩, ?_⟩
    intro n h
    cases hfs : firstSome
        [chooseDodge s (usableTools s st.bot) r1,
         chooseHeal st.bot (usableTools s st.bot),
         chooseShield st.bot (usableTools s st.bot) r2,
         chooseAttack (usableTools s st.bot)] with
    | some t =>
      rw [hfs] at h
      injection h with h
      refine ⟨t, ?_, h.symm⟩
      have hmem := firstSome_mem _ t hfs
      simp only [List.mem_cons, List.not_mem_nil, or_false] at hmem
      rcases hmem with h1 | h2 | h3 | h4
      · exact chooseDodge_mem s _ r1 t h1.symm
      · exact chooseHeal_mem st.bot _ t h2.symm
      · exact chooseShield_mem st.bot _ r2 t h3.symm
      · exact chooseAttack_mem _ t h4.symm
    | none =>
      rw [hfs] at h
      injection h with h
      exact ⟨chooseFallback (usableTools s st.bot) r3,
        chooseFallback_mem _ r3 h0 h1 hne, h.symm⟩

/-- C9, witness: on a fresh match with dodging disabled and all three draws 0,
the bot's decision is a usable tool's name (concretely, Lightning: the
strongest usable attack). -/
theorem claimC9_witness :
    (makeDecision turnBasedSettings (getInitialState 0) 0 0 0 = none ↔
        usableTools turnBasedSettings (getInitialState 0).bot = []) ∧
      ∀ n, makeDecision turnBasedSettings (getInitialState 0) 0 0 0 = some n →
        ∃ k ∈ usableTools turnBasedSettings (getInitialState 0).bot,
          n = (TOOLS k).name :=
  claimC9_ai_no_bypass turnBasedSettings (getInitialState 0) 0 0 0 (by norm_num)
    (by norm_num)

end TypeStrike
